import Mathlib

/-!
Verification of the Seastar shared-pointer bindings
(`src/seastar_lw_shared_ptr.rs` and `src/seastar_shared_ptr.rs`).

The two Rust wrapper types `SeastarLwSharedPtr<T>` and `SeastarSharedPtr<T>`
hold an opaque buffer whose only observable content is the raw pointee
address read back by the foreign trampoline `__get`; every state-changing
operation is delegated to foreign trampolines (`__null`, `__uninit`,
`__clone`, `__drop`).  We embed each wrapper as a structure holding that
observable address (a `Nat`, with `0` as the null sentinel) and make the
foreign heap explicit: a map from addresses to (value, refcount) pairs,
threaded through every operation in state-passing style.

The C++ side of the bridge (the trampoline bodies) is not part of this
repository's sources, so the trampoline semantics are modelled from the
spec (each such definition says so in its doc comment); the Rust-level
functions (`null`, `new`, `is_null`, `as_ref`, `clone`, `drop`, `deref`,
the `Send`/`Sync` impls and the link-name construction) are translated
from the Rust source directly.
-/

/-- Outcome of a Rust call that may panic: either a normal return or a
panic/abort carrying the panic message. -/
inductive Outcome (α : Type) where
  | ret (a : α)
  | panicked (msg : String)
deriving DecidableEq

/-- Rust `ExternType::Kind` (`kind::Trivial` vs `kind::Opaque`): whether the
pointee is a plain-data type that can exist by value on the Rust side.
`opaq` models `kind::Opaque`. -/
inductive Kind where
  | trivial
  | opaq
deriving DecidableEq

/-- Modelled from the spec: a foreign reference-counted object — the pointee
value together with its control block's reference count. -/
structure Obj (T : Type) where
  value : T
  refcount : Nat
deriving DecidableEq

/-- Modelled from the spec: the foreign runtime's heap of reference-counted
objects, as a map from raw addresses to objects.  Address `0` is the null
sentinel and is never allocated; `next` bounds all allocated addresses. -/
structure ForeignHeap (T : Type) where
  objs : Nat → Option (Obj T)
  next : Nat

/-- The empty foreign heap: no objects allocated. -/
def emptyHeap {T : Type} : ForeignHeap T := ⟨fun _ => none, 0⟩

/-- Modelled from the spec: the foreign allocator (`uninit` trampoline plus
the value write done by `__new`).  Allocates a fresh non-null address,
stores the value with reference count 1, and returns the address.  The
spec treats allocation as infallible ("the foreign allocator is assumed
infallible or aborts the process"). -/
def heapAlloc {T : Type} (v : T) (s : ForeignHeap T) : Nat × ForeignHeap T :=
  let a := s.next + 1
  (a, { objs := fun x => if x = a then some ⟨v, 1⟩ else s.objs x, next := a })

/-- Modelled from the spec: the refcount increment performed by the foreign
`clone` trampoline on a non-null handle's object. -/
def heapIncRef {T : Type} (a : Nat) (s : ForeignHeap T) : ForeignHeap T :=
  { s with objs := fun x =>
      if x = a then (s.objs x).map (fun o => ⟨o.value, o.refcount + 1⟩)
      else s.objs x }

/-- Modelled from the spec: the refcount decrement performed by the foreign
`drop` trampoline on a non-null handle's object, "deallocating at zero". -/
def heapDecRef {T : Type} (a : Nat) (s : ForeignHeap T) : ForeignHeap T :=
  { s with objs := fun x =>
      if x = a then
        match s.objs x with
        | some o => if o.refcount ≤ 1 then none else some ⟨o.value, o.refcount - 1⟩
        | none => none
      else s.objs x }

/-- Reading the pointee value behind a raw address.  Dereferencing a dangling
non-null pointer is undefined behavior in the source; the model returns an
arbitrary default value in that (unreachable under the heap invariant) case. -/
def readValue {T : Type} [Inhabited T] (s : ForeignHeap T) (a : Nat) : T :=
  match s.objs a with
  | some o => o.value
  | none => default

/-- Static per-type capability descriptor: the data supplied by a
`SeastarLwSharedPtrTarget` / `SeastarSharedPtrTarget` impl for a concrete
pointee type.  `typename` is what `__typename` writes, `segment` is the
macro's `$segment` used in link names, `kind` is the pointee's
`ExternType::Kind`, `hasNewBinding` records whether the impl overrides the
defaulted `__new` trait method (the macro-bound types do; generated opaque
pointees do not), and `sendT`/`syncT` record whether the pointee type `T`
itself is `Send` / `Sync`. -/
structure TargetDesc (T : Type) where
  typename : String
  segment : String
  kind : Kind
  hasNewBinding : Bool
  sendT : Bool
  syncT : Bool

/-- Binding to C++ `seastar::lw_shared_ptr<T>` (src/seastar_lw_shared_ptr.rs
lines 12-19): a one-word opaque buffer.  Its only observable content is the
raw address returned by `__get`, which is what `repr` models (0 = null). -/
structure SeastarLwSharedPtr (T : Type) where
  repr : Nat
deriving DecidableEq

/-- Binding to C++ `seastar::shared_ptr<T>` (src/seastar_shared_ptr.rs lines
12-19): a two-word opaque buffer.  The second word is opaque control-block
state never observed by the host, so the model again keeps only the raw
address returned by `__get` (0 = null). -/
structure SeastarSharedPtr (T : Type) where
  repr : Nat
deriving DecidableEq

namespace SeastarLwSharedPtr

variable {T : Type}

/-- Modelled from the spec: the foreign `null` trampoline — "initialize
buffer to empty state"; the buffer then reads back the null sentinel. -/
def __null (s : ForeignHeap T) : SeastarLwSharedPtr T × ForeignHeap T :=
  (⟨0⟩, s)

/-- Modelled from the spec: the foreign `uninit` trampoline composed with the
value write performed by the macro-provided `__new` (source lines 201-209):
allocate the object with the given value, handle owns it. -/
def __newAlloc (v : T) (s : ForeignHeap T) : SeastarLwSharedPtr T × ForeignHeap T :=
  let (a, s') := heapAlloc v s
  (⟨a⟩, s')

/-- Modelled from the spec: the foreign `get` trampoline — "read current
pointee address without side effects". -/
def __get (h : SeastarLwSharedPtr T) (s : ForeignHeap T) : Nat × ForeignHeap T :=
  (h.repr, s)

/-- Modelled from the spec: the foreign `clone` trampoline — increments the
refcount (for a non-null handle) and copies the control-block representation
into a fresh buffer aliasing the same object; cloning a null handle yields a
null handle. -/
def __clone (h : SeastarLwSharedPtr T) (s : ForeignHeap T) :
    SeastarLwSharedPtr T × ForeignHeap T :=
  if h.repr = 0 then (⟨0⟩, s) else (⟨h.repr⟩, heapIncRef h.repr s)

/-- Modelled from the spec: the foreign `drop` trampoline — "release one
reference, deallocating at zero"; a no-op on the heap for a null handle. -/
def __drop (h : SeastarLwSharedPtr T) (s : ForeignHeap T) : ForeignHeap T :=
  if h.repr = 0 then s else heapDecRef h.repr s

/-- `SeastarLwSharedPtr::null` (source lines 28-35): delegates to `__null`. -/
def null (s : ForeignHeap T) : SeastarLwSharedPtr T × ForeignHeap T :=
  __null s

/-- Dispatch of the `__new` trait method (trait declaration, source lines
168-177): an impl that overrides it runs the macro body (lines 201-209,
allocate and write the value); the default body for types with no
value-construct binding is `unreachable!()`, which panics with Rust's
standard unreachable message. -/
def dispatchNew (d : TargetDesc T) (v : T) (s : ForeignHeap T) :
    Outcome (SeastarLwSharedPtr T × ForeignHeap T) :=
  if d.hasNewBinding then .ret (__newAlloc v s)
  else .panicked "internal error: entered unreachable code"

/-- `SeastarLwSharedPtr::new` (source lines 38-48): available only under the
bound `T: ExternType<Kind = Trivial>`, modelled by the `Kind` hypothesis;
delegates to `T::__new`. -/
def new (d : TargetDesc T) (_hk : d.kind = Kind.trivial) (v : T)
    (s : ForeignHeap T) : Outcome (SeastarLwSharedPtr T × ForeignHeap T) :=
  dispatchNew d v s

/-- `SeastarLwSharedPtr::is_null` (source lines 53-57): reads the raw address
via `T::__get` and compares it with the null sentinel. -/
def is_null (h : SeastarLwSharedPtr T) (s : ForeignHeap T) : Bool × ForeignHeap T :=
  let (p, s') := __get h s
  (p == 0, s')

/-- `SeastarLwSharedPtr::as_ref` (source lines 61-64): reads the raw address
via `T::__get` and converts it with raw-pointer `as_ref`, which yields `None`
exactly on the null pointer and a reference to the pointee otherwise. -/
def as_ref [Inhabited T] (h : SeastarLwSharedPtr T) (s : ForeignHeap T) :
    Option T × ForeignHeap T :=
  let (p, s') := __get h s
  (if p = 0 then none else some (readValue s' p), s')

/-- `Clone for SeastarLwSharedPtr` (source lines 67-80): delegates to
`T::__clone` into a fresh buffer. -/
def clone (h : SeastarLwSharedPtr T) (s : ForeignHeap T) :
    SeastarLwSharedPtr T × ForeignHeap T :=
  __clone h s

/-- `Drop for SeastarLwSharedPtr` (source lines 86-94): delegates to
`T::__drop` on the handle's buffer. -/
def drop (h : SeastarLwSharedPtr T) (s : ForeignHeap T) : ForeignHeap T :=
  __drop h s

/-- `Deref for SeastarLwSharedPtr` (source lines 96-111): returns the
reference from `as_ref` when present, otherwise panics with a message built
from the pointee's `__typename`. -/
def deref [Inhabited T] (d : TargetDesc T) (h : SeastarLwSharedPtr T)
    (s : ForeignHeap T) : Outcome T :=
  match (as_ref h s).1 with
  | some t => .ret t
  | none =>
      .panicked ("called deref on a null SeastarLwSharedPtr<" ++ d.typename ++ ">")

end SeastarLwSharedPtr

namespace SeastarSharedPtr

variable {T : Type}

/-- Modelled from the spec: the foreign `null` trampoline for the full
handle kind — "initialize buffer to empty state". -/
def __null (s : ForeignHeap T) : SeastarSharedPtr T × ForeignHeap T :=
  (⟨0⟩, s)

/-- Modelled from the spec: the foreign `uninit` trampoline composed with the
value write performed by the macro-provided `__new` (source lines 204-212). -/
def __newAlloc (v : T) (s : ForeignHeap T) : SeastarSharedPtr T × ForeignHeap T :=
  let (a, s') := heapAlloc v s
  (⟨a⟩, s')

/-- Modelled from the spec: the foreign `get` trampoline for the full handle
kind — a side-effect-free read of the pointee address. -/
def __get (h : SeastarSharedPtr T) (s : ForeignHeap T) : Nat × ForeignHeap T :=
  (h.repr, s)

/-- Modelled from the spec: the foreign `clone` trampoline for the full
handle kind — an atomic refcount increment; the atomicity is not observable
in this sequential model, so the heap effect matches the compact kind's. -/
def __clone (h : SeastarSharedPtr T) (s : ForeignHeap T) :
    SeastarSharedPtr T × ForeignHeap T :=
  if h.repr = 0 then (⟨0⟩, s) else (⟨h.repr⟩, heapIncRef h.repr s)

/-- Modelled from the spec: the foreign `drop` trampoline for the full
handle kind — an atomic refcount decrement, deallocating at zero. -/
def __drop (h : SeastarSharedPtr T) (s : ForeignHeap T) : ForeignHeap T :=
  if h.repr = 0 then s else heapDecRef h.repr s

/-- `SeastarSharedPtr::null` (source lines 28-35): delegates to `__null`. -/
def null (s : ForeignHeap T) : SeastarSharedPtr T × ForeignHeap T :=
  __null s

/-- Dispatch of the `__new` trait method (trait declaration, source lines
171-180): overriding impls run the macro body (lines 204-212); the default
body for types with no value-construct binding is `unreachable!()`. -/
def dispatchNew (d : TargetDesc T) (v : T) (s : ForeignHeap T) :
    Outcome (SeastarSharedPtr T × ForeignHeap T) :=
  if d.hasNewBinding then .ret (__newAlloc v s)
  else .panicked "internal error: entered unreachable code"

/-- `SeastarSharedPtr::new` (source lines 38-48): available only under the
bound `T: ExternType<Kind = Trivial>`. -/
def new (d : TargetDesc T) (_hk : d.kind = Kind.trivial) (v : T)
    (s : ForeignHeap T) : Outcome (SeastarSharedPtr T × ForeignHeap T) :=
  dispatchNew d v s

/-- `SeastarSharedPtr::is_null` (source lines 53-57). -/
def is_null (h : SeastarSharedPtr T) (s : ForeignHeap T) : Bool × ForeignHeap T :=
  let (p, s') := __get h s
  (p == 0, s')

/-- `SeastarSharedPtr::as_ref` (source lines 61-64). -/
def as_ref [Inhabited T] (h : SeastarSharedPtr T) (s : ForeignHeap T) :
    Option T × ForeignHeap T :=
  let (p, s') := __get h s
  (if p = 0 then none else some (readValue s' p), s')

/-- `Clone for SeastarSharedPtr` (source lines 70-83). -/
def clone (h : SeastarSharedPtr T) (s : ForeignHeap T) :
    SeastarSharedPtr T × ForeignHeap T :=
  __clone h s

/-- `Drop for SeastarSharedPtr` (source lines 89-97). -/
def drop (h : SeastarSharedPtr T) (s : ForeignHeap T) : ForeignHeap T :=
  __drop h s

/-- `Deref for SeastarSharedPtr` (source lines 99-114). -/
def deref [Inhabited T] (d : TargetDesc T) (h : SeastarSharedPtr T)
    (s : ForeignHeap T) : Outcome T :=
  match (as_ref h s).1 with
  | some t => .ret t
  | none =>
      .panicked ("called deref on a null SeastarSharedPtr<" ++ d.typename ++ ">")

end SeastarSharedPtr

/-! Link names of the foreign trampolines.  The macro
`impl_lw_shared_ptr_target!` (src/seastar_lw_shared_ptr.rs lines 186-239)
and `impl_shared_ptr_target!` (src/seastar_shared_ptr.rs lines 189-242)
build each binding's `link_name` by `concat!` of a fixed literal, the
per-type `$segment`, and a literal naming the operation. -/

/-- Link name of the compact handle's `null` trampoline (source line 195). -/
def lwNullSymbol (segment : String) : String :=
  "cxxbridge1$seastar$lw_shared_ptr$" ++ segment ++ "$null"

/-- Link name of the compact handle's `uninit` trampoline, used by the
value-construct operation `__new` (source line 204). -/
def lwUninitSymbol (segment : String) : String :=
  "cxxbridge1$seastar$lw_shared_ptr$" ++ segment ++ "$uninit"

/-- Link name of the compact handle's `clone` trampoline (source line 213). -/
def lwCloneSymbol (segment : String) : String :=
  "cxxbridge1$seastar$lw_shared_ptr$" ++ segment ++ "$clone"

/-- Link name of the compact handle's `get` trampoline (source line 222). -/
def lwGetSymbol (segment : String) : String :=
  "cxxbridge1$seastar$lw_shared_ptr$" ++ segment ++ "$get"

/-- Link name of the compact handle's `drop` trampoline (source line 231). -/
def lwDropSymbol (segment : String) : String :=
  "cxxbridge1$seastar$lw_shared_ptr$" ++ segment ++ "$drop"

/-- Link name of the full handle's `null` trampoline (source line 198). -/
def spNullSymbol (segment : String) : String :=
  "cxxbridge1$seastar$shared_ptr$" ++ segment ++ "$null"

/-- Link name of the full handle's `uninit` trampoline (source line 207). -/
def spUninitSymbol (segment : String) : String :=
  "cxxbridge1$seastar$shared_ptr$" ++ segment ++ "$uninit"

/-- Link name of the full handle's `clone` trampoline (source line 216). -/
def spCloneSymbol (segment : String) : String :=
  "cxxbridge1$seastar$shared_ptr$" ++ segment ++ "$clone"

/-- Link name of the full handle's `get` trampoline (source line 225). -/
def spGetSymbol (segment : String) : String :=
  "cxxbridge1$seastar$shared_ptr$" ++ segment ++ "$get"

/-- Link name of the full handle's `drop` trampoline (source line 234). -/
def spDropSymbol (segment : String) : String :=
  "cxxbridge1$seastar$shared_ptr$" ++ segment ++ "$drop"

/-- The spec's description of a trampoline symbol: the fixed prefix, the
handle-kind segment, the per-type segment and the operation name, each
separated by a dollar sign. -/
def specSymbol (kindSegment typeSegment op : String) : String :=
  "cxxbridge1$seastar$" ++ kindSegment ++ "$" ++ typeSegment ++ "$" ++ op

/-! Cross-thread sharing capabilities (the Rust `Send`/`Sync` auto traits).

`SeastarSharedPtr` declares `unsafe impl Send`/`unsafe impl Sync` bounded by
`T: Send + Sync + SeastarSharedPtrTarget` (src/seastar_shared_ptr.rs lines
67-68), so the full handle is Send (resp. Sync) exactly when the pointee is
both Send and Sync.

`SeastarLwSharedPtr` has no such impl (src/seastar_lw_shared_ptr.rs has no
`unsafe impl Send/Sync`), so Rust's auto-trait derivation applies: the
struct is Send/Sync only if all of its fields are, and its
`MaybeUninit<*mut c_void>` field contains a raw pointer, which is neither
Send nor Sync; hence the compact handle is never Send nor Sync, for every
pointee type. -/

/-- Rust: whether `*mut c_void` is Send (it is not, for any pointee). -/
def rawPtrSend : Bool := false

/-- Rust: whether `*mut c_void` is Sync (it is not, for any pointee). -/
def rawPtrSync : Bool := false

/-- Auto-derived `Send` for `SeastarLwSharedPtr<T>`: the conjunction over
its fields (`MaybeUninit<*mut c_void>` and `PhantomData<T>`), per Rust's
auto-trait rule, with no overriding unsafe impl in the source. -/
def seastarLwSharedPtrSend {T : Type} (d : TargetDesc T) : Bool :=
  rawPtrSend && d.sendT

/-- Auto-derived `Sync` for `SeastarLwSharedPtr<T>`: the conjunction over
its fields, with no overriding unsafe impl in the source. -/
def seastarLwSharedPtrSync {T : Type} (d : TargetDesc T) : Bool :=
  rawPtrSync && d.syncT

/-- `unsafe impl<T> Send for SeastarSharedPtr<T> where T: Send + Sync + ...`
(src/seastar_shared_ptr.rs line 67). -/
def seastarSharedPtrSend {T : Type} (d : TargetDesc T) : Bool :=
  d.sendT && d.syncT

/-- `unsafe impl<T> Sync for SeastarSharedPtr<T> where T: Send + Sync + ...`
(src/seastar_shared_ptr.rs line 68). -/
def seastarSharedPtrSync {T : Type} (d : TargetDesc T) : Bool :=
  d.sendT && d.syncT

/-- Capability descriptor of the `u32` pointee binding generated by
`impl_lw_shared_ptr_target_for_primitive!(u32)` /
`impl_shared_ptr_target_for_primitive!(u32)`: typename and segment are both
"u32", the pointee is trivial (plain data), the macro overrides `__new`,
and `u32` is Send and Sync.  The pointee value type is modelled as `Nat`. -/
def u32Desc : TargetDesc Nat :=
  { typename := "u32", segment := "u32", kind := Kind.trivial,
    hasNewBinding := true, sendT := true, syncT := true }

/-- Capability descriptor of a generated foreign-opaque pointee type, which
has no value-construct binding: `kind` is Opaque, `__new` keeps its default
(unreachable) body. -/
def opaqueGenDesc : TargetDesc Nat :=
  { typename := "OpaqueTy", segment := "OpaqueTy", kind := Kind.opaq,
    hasNewBinding := false, sendT := false, syncT := false }

/-! Handle-lifetime traces.

Rust's ownership discipline guarantees that `Drop::drop` runs exactly once
on every handle instance, at its scope exit, and that a moved-from or
dropped handle is never used again.  Modelled from the spec ("Destroyed
when the handle value itself goes out of scope, at which point release is
invoked exactly once"): a host program's use of handles is a trace of
events over a state holding the list of live handles and the foreign heap;
`doDrop i` is the scope exit of live handle number `i`, and each event
delegates to the corresponding source operation.  The state counts handle
creations and `__drop` trampoline invocations so that "release fires
exactly once per handle" is expressible. -/

/-- One event in a host program's use of compact handles. -/
inductive LwEvent (T : Type) where
  | mkNull : LwEvent T
  | mkNew : T → LwEvent T
  | doClone : Nat → LwEvent T
  | doDrop : Nat → LwEvent T
deriving DecidableEq

/-- Trace state for compact handles: the live handles, the foreign heap,
the number of handles created so far, the number of `__drop` trampoline
invocations so far, and whether execution is still running (`ok = false`
after a panic or an ill-formed event, after which nothing further runs). -/
structure LwSt (T : Type) where
  handles : List (SeastarLwSharedPtr T)
  heap : ForeignHeap T
  created : Nat
  releases : Nat
  ok : Bool

/-- Initial trace state: no handles, empty foreign heap. -/
def LwSt.init {T : Type} : LwSt T := ⟨[], emptyHeap, 0, 0, true⟩

/-- Effect of one event on the trace state, delegating to the source
operations (`null`, `dispatchNew`, `clone`, `drop`). -/
def LwApply {T : Type} (d : TargetDesc T) (s : LwSt T) (e : LwEvent T) : LwSt T :=
  match e with
  | .mkNull =>
      { handles := (SeastarLwSharedPtr.null s.heap).1 :: s.handles,
        heap := (SeastarLwSharedPtr.null s.heap).2,
        created := s.created + 1, releases := s.releases, ok := true }
  | .mkNew v =>
      match SeastarLwSharedPtr.dispatchNew d v s.heap with
      | .ret ph =>
          { handles := ph.1 :: s.handles, heap := ph.2,
            created := s.created + 1, releases := s.releases, ok := true }
      | .panicked _ => { s with ok := false }
  | .doClone i =>
      match s.handles[i]? with
      | some h =>
          { handles := (SeastarLwSharedPtr.clone h s.heap).1 :: s.handles,
            heap := (SeastarLwSharedPtr.clone h s.heap).2,
            created := s.created + 1, releases := s.releases, ok := true }
      | none => { s with ok := false }
  | .doDrop i =>
      match s.handles[i]? with
      | some h =>
          { handles := s.handles.eraseIdx i,
            heap := SeastarLwSharedPtr.drop h s.heap,
            created := s.created, releases := s.releases + 1, ok := true }
      | none => { s with ok := false }

/-- One step: events have no effect once execution has stopped. -/
def LwStep {T : Type} (d : TargetDesc T) (s : LwSt T) (e : LwEvent T) : LwSt T :=
  if s.ok = false then s else LwApply d s e

/-- Running a whole trace from the initial state. -/
def LwRun {T : Type} (d : TargetDesc T) (es : List (LwEvent T)) : LwSt T :=
  es.foldl (LwStep d) LwSt.init

/-- Number of live compact handles whose buffer holds the address `a`. -/
def lwAliasCount {T : Type} (hs : List (SeastarLwSharedPtr T)) (a : Nat) : Nat :=
  hs.countP (fun h => h.repr == a)

/-- Reference count recorded in the foreign heap at address `a` (0 when no
object lives there). -/
def refAt {T : Type} (s : ForeignHeap T) (a : Nat) : Nat :=
  ((s.objs a).map Obj.refcount).getD 0

/-- Trace invariant: every object's reference count equals the number of
live handles aliasing it, live objects have positive refcount, the null
sentinel and all addresses beyond `next` are unallocated, and the number of
release invocations plus the number of still-live handles equals the number
of handles created. -/
def LwInv {T : Type} (s : LwSt T) : Prop :=
  (∀ a, a ≠ 0 → refAt s.heap a = lwAliasCount s.handles a)
  ∧ (∀ a o, s.heap.objs a = some o → 0 < o.refcount)
  ∧ s.heap.objs 0 = none
  ∧ (∀ a, s.heap.next < a → s.heap.objs a = none)
  ∧ s.releases + s.handles.length = s.created

theorem lwAliasCount_cons {T : Type} (p : SeastarLwSharedPtr T)
    (hs : List (SeastarLwSharedPtr T)) (a : Nat) :
    lwAliasCount (p :: hs) a
      = lwAliasCount hs a + (if p.repr == a then 1 else 0) := by
  simp [lwAliasCount, List.countP_cons]

theorem lwAliasCount_cons_ne {T : Type} {p : SeastarLwSharedPtr T}
    {hs : List (SeastarLwSharedPtr T)} {a : Nat} (h : p.repr ≠ a) :
    lwAliasCount (p :: hs) a = lwAliasCount hs a := by
  simp [lwAliasCount, List.countP_cons, h]

theorem lwAliasCount_cons_eq {T : Type} {p : SeastarLwSharedPtr T}
    {hs : List (SeastarLwSharedPtr T)} {a : Nat} (h : p.repr = a) :
    lwAliasCount (p :: hs) a = lwAliasCount hs a + 1 := by
  simp [lwAliasCount, List.countP_cons, h]

/-- Removing the element at a valid index decrements `countP` by one exactly
when the removed element satisfies the predicate. -/
theorem countP_eraseIdx_getElem {α : Type} (p : α → Bool) :
    ∀ (l : List α) (i : Nat) (x : α), l[i]? = some x →
      (l.eraseIdx i).countP p + (if p x then 1 else 0) = l.countP p := by
  intro l
  induction l with
  | nil => intro i x hx; simp at hx
  | cons y ys ih =>
      intro i x hx
      cases i with
      | zero =>
          simp only [List.getElem?_cons_zero, Option.some.injEq] at hx
          subst hx
          simp [List.countP_cons]
      | succ j =>
          simp only [List.getElem?_cons_succ] at hx
          have hj := ih j x hx
          simp only [List.eraseIdx_cons_succ, List.countP_cons]
          omega


theorem heapAlloc_fst {T : Type} (v : T) (s : ForeignHeap T) :
    (heapAlloc v s).1 = s.next + 1 := rfl

theorem heapAlloc_next {T : Type} (v : T) (s : ForeignHeap T) :
    (heapAlloc v s).2.next = s.next + 1 := rfl

theorem heapAlloc_objs_eq {T : Type} (v : T) (s : ForeignHeap T) :
    (heapAlloc v s).2.objs (s.next + 1) = some ⟨v, 1⟩ := by
  simp [heapAlloc]

theorem heapAlloc_objs_ne {T : Type} (v : T) (s : ForeignHeap T) {x : Nat}
    (h : x ≠ s.next + 1) : (heapAlloc v s).2.objs x = s.objs x := by
  simp [heapAlloc, h]

theorem heapIncRef_next {T : Type} (A : Nat) (s : ForeignHeap T) :
    (heapIncRef A s).next = s.next := rfl

theorem heapIncRef_objs_eq {T : Type} (A : Nat) (s : ForeignHeap T) :
    (heapIncRef A s).objs A
      = (s.objs A).map (fun o => ⟨o.value, o.refcount + 1⟩) := by
  simp [heapIncRef]

theorem heapIncRef_objs_ne {T : Type} (A : Nat) (s : ForeignHeap T) {x : Nat}
    (h : x ≠ A) : (heapIncRef A s).objs x = s.objs x := by
  simp [heapIncRef, h]

theorem heapDecRef_next {T : Type} (A : Nat) (s : ForeignHeap T) :
    (heapDecRef A s).next = s.next := rfl

theorem heapDecRef_objs_eq {T : Type} (A : Nat) (s : ForeignHeap T)
    (o : Obj T) (ho : s.objs A = some o) :
    (heapDecRef A s).objs A
      = (if o.refcount ≤ 1 then none else some ⟨o.value, o.refcount - 1⟩) := by
  simp [heapDecRef, ho]

theorem heapDecRef_objs_ne {T : Type} (A : Nat) (s : ForeignHeap T) {x : Nat}
    (h : x ≠ A) : (heapDecRef A s).objs x = s.objs x := by
  simp [heapDecRef, h]

/-- Erasing live handle number `i` lowers the alias count of its address by
one and leaves every other address's alias count unchanged. -/
theorem lwAliasCount_eraseIdx {T : Type} {hs : List (SeastarLwSharedPtr T)}
    {i : Nat} {h : SeastarLwSharedPtr T} (hget : hs[i]? = some h) (a : Nat) :
    lwAliasCount (hs.eraseIdx i) a + (if h.repr = a then 1 else 0)
      = lwAliasCount hs a := by
  have hc := countP_eraseIdx_getElem (fun p => p.repr == a) hs i h hget
  dsimp only at hc
  simpa [lwAliasCount] using hc

/-- Each trace step preserves the refcount/alias invariant. -/
theorem LwStep_inv {T : Type} (d : TargetDesc T) (s : LwSt T) (e : LwEvent T)
    (hI : LwInv s) : LwInv (LwStep d s e) := by
  obtain ⟨hrc, hpos, hz, hfresh, hcnt⟩ := hI
  by_cases hok : s.ok = false
  · rw [LwStep, if_pos hok]
    exact ⟨hrc, hpos, hz, hfresh, hcnt⟩
  · rw [LwStep, if_neg hok]
    cases e with
    | mkNull =>
        simp only [LwApply, SeastarLwSharedPtr.null, SeastarLwSharedPtr.__null]
        refine ⟨?_, hpos, hz, hfresh, ?_⟩
        · intro a ha
          dsimp only
          rw [lwAliasCount_cons_ne (p := ⟨0⟩) (by simpa using Ne.symm ha)]
          exact hrc a ha
        · dsimp only
          simp only [List.length_cons]
          omega
    | mkNew v =>
        by_cases hb : d.hasNewBinding = true
        · simp only [LwApply, SeastarLwSharedPtr.dispatchNew, hb, if_true,
            SeastarLwSharedPtr.__newAlloc, heapAlloc_fst]
          refine ⟨?_, ?_, ?_, ?_, ?_⟩
          · intro a ha
            dsimp only
            have hA0 : lwAliasCount s.handles (s.heap.next + 1) = 0 := by
              have h0 : s.heap.objs (s.heap.next + 1) = none :=
                hfresh _ (Nat.lt_succ_self _)
              have hx := hrc (s.heap.next + 1) (by omega)
              simp [refAt, h0] at hx
              omega
            by_cases hna : a = s.heap.next + 1
            · subst hna
              have hcons : lwAliasCount
                  ((⟨s.heap.next + 1⟩ : SeastarLwSharedPtr T) :: s.handles)
                  (s.heap.next + 1)
                  = lwAliasCount s.handles (s.heap.next + 1) + 1 :=
                lwAliasCount_cons_eq rfl
              rw [hcons, hA0]
              simp [refAt, heapAlloc_objs_eq]
            · rw [lwAliasCount_cons_ne (p := ⟨s.heap.next + 1⟩)
                (by simpa using Ne.symm hna)]
              rw [show refAt (heapAlloc v s.heap).2 a = refAt s.heap a by
                simp [refAt, heapAlloc_objs_ne v s.heap hna]]
              exact hrc a ha
          · intro a o hod
            dsimp only at hod
            by_cases hna : a = s.heap.next + 1
            · subst hna
              rw [heapAlloc_objs_eq] at hod
              cases hod
              simp
            · rw [heapAlloc_objs_ne v s.heap hna] at hod
              exact hpos a o hod
          · dsimp only
            rw [heapAlloc_objs_ne v s.heap (by omega)]
            exact hz
          · intro a halt
            dsimp only at halt ⊢
            rw [heapAlloc_next] at halt
            rw [heapAlloc_objs_ne v s.heap (by omega)]
            exact hfresh a (by omega)
          · dsimp only
            simp only [List.length_cons]
            omega
        · simp only [LwApply, SeastarLwSharedPtr.dispatchNew, hb, if_false]
          exact ⟨hrc, hpos, hz, hfresh, hcnt⟩
    | doClone i =>
        cases hget : s.handles[i]? with
        | none =>
            simp only [LwApply, hget]
            exact ⟨hrc, hpos, hz, hfresh, hcnt⟩
        | some h =>
            by_cases hr : h.repr = 0
            · simp only [LwApply, hget, SeastarLwSharedPtr.clone,
                SeastarLwSharedPtr.__clone, if_pos hr]
              refine ⟨?_, hpos, hz, hfresh, ?_⟩
              · intro a ha
                dsimp only
                rw [lwAliasCount_cons_ne (p := ⟨0⟩) (by simpa using Ne.symm ha)]
                exact hrc a ha
              · dsimp only
                simp only [List.length_cons]
                omega
            · have hmem : h ∈ s.handles := List.getElem?_mem hget
              have hcountpos : 0 < lwAliasCount s.handles h.repr := by
                simp only [lwAliasCount]
                exact List.countP_pos_iff.mpr ⟨h, hmem, by simp⟩
              obtain ⟨o, ho⟩ : ∃ o, s.heap.objs h.repr = some o := by
                have hrcpos : 0 < refAt s.heap h.repr := by
                  rw [hrc h.repr hr]; exact hcountpos
                cases hobj : s.heap.objs h.repr with
                | none => simp [refAt, hobj] at hrcpos
                | some o => exact ⟨o, rfl⟩
              have horc : o.refcount = lwAliasCount s.handles h.repr := by
                have hx := hrc h.repr hr
                simpa [refAt, ho] using hx
              simp only [LwApply, hget, SeastarLwSharedPtr.clone,
                SeastarLwSharedPtr.__clone, if_neg hr]
              refine ⟨?_, ?_, ?_, ?_, ?_⟩
              · intro a ha
                dsimp only
                by_cases hna : a = h.repr
                · subst hna
                  have hup : refAt (heapIncRef h.repr s.heap) h.repr
                      = o.refcount + 1 := by
                    simp [refAt, heapIncRef_objs_eq, ho]
                  have hcons : lwAliasCount
                      ((⟨h.repr⟩ : SeastarLwSharedPtr T) :: s.handles) h.repr
                      = lwAliasCount s.handles h.repr + 1 :=
                    lwAliasCount_cons_eq rfl
                  rw [hcons, hup]
                  omega
                · rw [lwAliasCount_cons_ne (p := ⟨h.repr⟩)
                    (by simpa using Ne.symm hna)]
                  rw [show refAt (heapIncRef h.repr s.heap) a = refAt s.heap a by
                    simp [refAt, heapIncRef_objs_ne h.repr s.heap hna]]
                  exact hrc a ha
              · intro a o' hod
                dsimp only at hod
                by_cases hna : a = h.repr
                · subst hna
                  rw [heapIncRef_objs_eq, ho] at hod
                  simp only [Option.map_some', Option.some.injEq] at hod
                  subst hod
                  simp
                · rw [heapIncRef_objs_ne h.repr s.heap hna] at hod
                  exact hpos a o' hod
              · dsimp only
                rw [heapIncRef_objs_ne h.repr s.heap (Ne.symm hr)]
                exact hz
              · intro a halt
                dsimp only at halt ⊢
                rw [heapIncRef_next] at halt
                have hne : a ≠ h.repr := by
                  intro heqa
                  have hcontra := hfresh a halt
                  rw [heqa, ho] at hcontra
                  exact Option.noConfusion hcontra
                rw [heapIncRef_objs_ne h.repr s.heap hne]
                exact hfresh a halt
              · dsimp only
                simp only [List.length_cons]
                omega
    | doDrop i =>
        cases hget : s.handles[i]? with
        | none =>
            simp only [LwApply, hget]
            exact ⟨hrc, hpos, hz, hfresh, hcnt⟩
        | some h =>
            have hlt : i < s.handles.length :=
              (List.getElem?_eq_some_iff.mp hget).1
            have hlen : (s.handles.eraseIdx i).length = s.handles.length - 1 :=
              List.length_eraseIdx_of_lt hlt
            by_cases hr : h.repr = 0
            · simp only [LwApply, hget, SeastarLwSharedPtr.drop,
                SeastarLwSharedPtr.__drop, if_pos hr]
              refine ⟨?_, hpos, hz, hfresh, ?_⟩
              · intro a ha
                dsimp only
                have herase := lwAliasCount_eraseIdx hget a
                rw [if_neg (by omega : ¬h.repr = a)] at herase
                have hx := hrc a ha
                omega
              · dsimp only
                omega
            · have hmem : h ∈ s.handles := List.getElem?_mem hget
              have hcountpos : 0 < lwAliasCount s.handles h.repr := by
                simp only [lwAliasCount]
                exact List.countP_pos_iff.mpr ⟨h, hmem, by simp⟩
              obtain ⟨o, ho⟩ : ∃ o, s.heap.objs h.repr = some o := by
                have hrcpos : 0 < refAt s.heap h.repr := by
                  rw [hrc h.repr hr]; exact hcountpos
                cases hobj : s.heap.objs h.repr with
                | none => simp [refAt, hobj] at hrcpos
                | some o => exact ⟨o, rfl⟩
              have horc : o.refcount = lwAliasCount s.handles h.repr := by
                have hx := hrc h.repr hr
                simpa [refAt, ho] using hx
              simp only [LwApply, hget, SeastarLwSharedPtr.drop,
                SeastarLwSharedPtr.__drop, if_neg hr]
              refine ⟨?_, ?_, ?_, ?_, ?_⟩
              · intro a ha
                dsimp only
                have herase := lwAliasCount_eraseIdx hget a
                by_cases hna : a = h.repr
                · subst hna
                  rw [if_pos rfl] at herase
                  rw [show refAt (heapDecRef h.repr s.heap) h.repr
                      = (if o.refcount ≤ 1 then 0 else o.refcount - 1) by
                    rw [refAt, heapDecRef_objs_eq h.repr s.heap o ho]
                    by_cases hone : o.refcount ≤ 1 <;> simp [hone]]
                  split <;> omega
                · rw [if_neg (by omega : ¬h.repr = a)] at herase
                  rw [show refAt (heapDecRef h.repr s.heap) a = refAt s.heap a by
                    simp [refAt, heapDecRef_objs_ne h.repr s.heap hna]]
                  have hx := hrc a ha
                  omega
              · intro a o' hod
                dsimp only at hod
                by_cases hna : a = h.repr
                · subst hna
                  rw [heapDecRef_objs_eq h.repr s.heap o ho] at hod
                  by_cases hone : o.refcount ≤ 1
                  · simp [hone] at hod
                  · simp only [if_neg hone, Option.some.injEq] at hod
                    subst hod
                    simp only []
                    omega
                · rw [heapDecRef_objs_ne h.repr s.heap hna] at hod
                  exact hpos a o' hod
              · dsimp only
                rw [heapDecRef_objs_ne h.repr s.heap (Ne.symm hr)]
                exact hz
              · intro a halt
                dsimp only at halt ⊢
                rw [heapDecRef_next] at halt
                have hne : a ≠ h.repr := by
                  intro heqa
                  have hcontra := hfresh a halt
                  rw [heqa, ho] at hcontra
                  exact Option.noConfusion hcontra
                rw [heapDecRef_objs_ne h.repr s.heap hne]
                exact hfresh a halt
              · dsimp only
                omega

/-- The invariant holds after running any trace from the initial state. -/
theorem LwRun_inv {T : Type} (d : TargetDesc T) (es : List (LwEvent T)) :
    LwInv (LwRun d es) := by
  have hinit : LwInv (LwSt.init (T := T)) := by
    refine ⟨?_, ?_, ?_, ?_, ?_⟩ <;>
      simp [LwSt.init, emptyHeap, refAt, lwAliasCount]
  rw [LwRun]
  generalize LwSt.init = s0 at hinit ⊢
  induction es generalizing s0 with
  | nil => simpa using hinit
  | cons e es ih =>
      simp only [List.foldl_cons]
      exact ih _ (LwStep_inv d s0 e hinit)

/-- One event in a host program's use of full handles. -/
inductive SpEvent (T : Type) where
  | mkNull : SpEvent T
  | mkNew : T → SpEvent T
  | doClone : Nat → SpEvent T
  | doDrop : Nat → SpEvent T
deriving DecidableEq

/-- Trace state for full handles: the live handles, the foreign heap,
the number of handles created so far, the number of `__drop` trampoline
invocations so far, and whether execution is still running (`ok = false`
after a panic or an ill-formed event, after which nothing further runs). -/
structure SpSt (T : Type) where
  handles : List (SeastarSharedPtr T)
  heap : ForeignHeap T
  created : Nat
  releases : Nat
  ok : Bool

/-- Initial trace state: no handles, empty foreign heap. -/
def SpSt.init {T : Type} : SpSt T := ⟨[], emptyHeap, 0, 0, true⟩

/-- Effect of one event on the trace state, delegating to the source
operations (`null`, `dispatchNew`, `clone`, `drop`). -/
def SpApply {T : Type} (d : TargetDesc T) (s : SpSt T) (e : SpEvent T) : SpSt T :=
  match e with
  | .mkNull =>
      { handles := (SeastarSharedPtr.null s.heap).1 :: s.handles,
        heap := (SeastarSharedPtr.null s.heap).2,
        created := s.created + 1, releases := s.releases, ok := true }
  | .mkNew v =>
      match SeastarSharedPtr.dispatchNew d v s.heap with
      | .ret ph =>
          { handles := ph.1 :: s.handles, heap := ph.2,
            created := s.created + 1, releases := s.releases, ok := true }
      | .panicked _ => { s with ok := false }
  | .doClone i =>
      match s.handles[i]? with
      | some h =>
          { handles := (SeastarSharedPtr.clone h s.heap).1 :: s.handles,
            heap := (SeastarSharedPtr.clone h s.heap).2,
            created := s.created + 1, releases := s.releases, ok := true }
      | none => { s with ok := false }
  | .doDrop i =>
      match s.handles[i]? with
      | some h =>
          { handles := s.handles.eraseIdx i,
            heap := SeastarSharedPtr.drop h s.heap,
            created := s.created, releases := s.releases + 1, ok := true }
      | none => { s with ok := false }

/-- One step: events have no effect once execution has stopped. -/
def SpStep {T : Type} (d : TargetDesc T) (s : SpSt T) (e : SpEvent T) : SpSt T :=
  if s.ok = false then s else SpApply d s e

/-- Running a whole trace from the initial state. -/
def SpRun {T : Type} (d : TargetDesc T) (es : List (SpEvent T)) : SpSt T :=
  es.foldl (SpStep d) SpSt.init

/-- Number of live full handles whose buffer holds the address `a`. -/
def spAliasCount {T : Type} (hs : List (SeastarSharedPtr T)) (a : Nat) : Nat :=
  hs.countP (fun h => h.repr == a)

/-- Trace invariant: every object's reference count equals the number of
live handles aliasing it, live objects have positive refcount, the null
sentinel and all addresses beyond `next` are unallocated, and the number of
release invocations plus the number of still-live handles equals the number
of handles created. -/
def SpInv {T : Type} (s : SpSt T) : Prop :=
  (∀ a, a ≠ 0 → refAt s.heap a = spAliasCount s.handles a)
  ∧ (∀ a o, s.heap.objs a = some o → 0 < o.refcount)
  ∧ s.heap.objs 0 = none
  ∧ (∀ a, s.heap.next < a → s.heap.objs a = none)
  ∧ s.releases + s.handles.length = s.created

theorem spAliasCount_cons {T : Type} (p : SeastarSharedPtr T)
    (hs : List (SeastarSharedPtr T)) (a : Nat) :
    spAliasCount (p :: hs) a
      = spAliasCount hs a + (if p.repr == a then 1 else 0) := by
  simp [spAliasCount, List.countP_cons]

theorem spAliasCount_cons_ne {T : Type} {p : SeastarSharedPtr T}
    {hs : List (SeastarSharedPtr T)} {a : Nat} (h : p.repr ≠ a) :
    spAliasCount (p :: hs) a = spAliasCount hs a := by
  simp [spAliasCount, List.countP_cons, h]

theorem spAliasCount_cons_eq {T : Type} {p : SeastarSharedPtr T}
    {hs : List (SeastarSharedPtr T)} {a : Nat} (h : p.repr = a) :
    spAliasCount (p :: hs) a = spAliasCount hs a + 1 := by
  simp [spAliasCount, List.countP_cons, h]

/-- Erasing live handle number `i` lowers the alias count of its address by
one and leaves every other address's alias count unchanged. -/
theorem spAliasCount_eraseIdx {T : Type} {hs : List (SeastarSharedPtr T)}
    {i : Nat} {h : SeastarSharedPtr T} (hget : hs[i]? = some h) (a : Nat) :
    spAliasCount (hs.eraseIdx i) a + (if h.repr = a then 1 else 0)
      = spAliasCount hs a := by
  have hc := countP_eraseIdx_getElem (fun p => p.repr == a) hs i h hget
  dsimp only at hc
  simpa [spAliasCount] using hc

/-- Each trace step preserves the refcount/alias invariant. -/
theorem SpStep_inv {T : Type} (d : TargetDesc T) (s : SpSt T) (e : SpEvent T)
    (hI : SpInv s) : SpInv (SpStep d s e) := by
  obtain ⟨hrc, hpos, hz, hfresh, hcnt⟩ := hI
  by_cases hok : s.ok = false
  · rw [SpStep, if_pos hok]
    exact ⟨hrc, hpos, hz, hfresh, hcnt⟩
  · rw [SpStep, if_neg hok]
    cases e with
    | mkNull =>
        simp only [SpApply, SeastarSharedPtr.null, SeastarSharedPtr.__null]
        refine ⟨?_, hpos, hz, hfresh, ?_⟩
        · intro a ha
          dsimp only
          rw [spAliasCount_cons_ne (p := ⟨0⟩) (by simpa using Ne.symm ha)]
          exact hrc a ha
        · dsimp only
          simp only [List.length_cons]
          omega
    | mkNew v =>
        by_cases hb : d.hasNewBinding = true
        · simp only [SpApply, SeastarSharedPtr.dispatchNew, hb, if_true,
            SeastarSharedPtr.__newAlloc, heapAlloc_fst]
          refine ⟨?_, ?_, ?_, ?_, ?_⟩
          · intro a ha
            dsimp only
            have hA0 : spAliasCount s.handles (s.heap.next + 1) = 0 := by
              have h0 : s.heap.objs (s.heap.next + 1) = none :=
                hfresh _ (Nat.lt_succ_self _)
              have hx := hrc (s.heap.next + 1) (by omega)
              simp [refAt, h0] at hx
              omega
            by_cases hna : a = s.heap.next + 1
            · subst hna
              have hcons : spAliasCount
                  ((⟨s.heap.next + 1⟩ : SeastarSharedPtr T) :: s.handles)
                  (s.heap.next + 1)
                  = spAliasCount s.handles (s.heap.next + 1) + 1 :=
                spAliasCount_cons_eq rfl
              rw [hcons, hA0]
              simp [refAt, heapAlloc_objs_eq]
            · rw [spAliasCount_cons_ne (p := ⟨s.heap.next + 1⟩)
                (by simpa using Ne.symm hna)]
              rw [show refAt (heapAlloc v s.heap).2 a = refAt s.heap a by
                simp [refAt, heapAlloc_objs_ne v s.heap hna]]
              exact hrc a ha
          · intro a o hod
            dsimp only at hod
            by_cases hna : a = s.heap.next + 1
            · subst hna
              rw [heapAlloc_objs_eq] at hod
              cases hod
              simp
            · rw [heapAlloc_objs_ne v s.heap hna] at hod
              exact hpos a o hod
          · dsimp only
            rw [heapAlloc_objs_ne v s.heap (by omega)]
            exact hz
          · intro a halt
            dsimp only at halt ⊢
            rw [heapAlloc_next] at halt
            rw [heapAlloc_objs_ne v s.heap (by omega)]
            exact hfresh a (by omega)
          · dsimp only
            simp only [List.length_cons]
            omega
        · simp only [SpApply, SeastarSharedPtr.dispatchNew, hb, if_false]
          exact ⟨hrc, hpos, hz, hfresh, hcnt⟩
    | doClone i =>
        cases hget : s.handles[i]? with
        | none =>
            simp only [SpApply, hget]
            exact ⟨hrc, hpos, hz, hfresh, hcnt⟩
        | some h =>
            by_cases hr : h.repr = 0
            · simp only [SpApply, hget, SeastarSharedPtr.clone,
                SeastarSharedPtr.__clone, if_pos hr]
              refine ⟨?_, hpos, hz, hfresh, ?_⟩
              · intro a ha
                dsimp only
                rw [spAliasCount_cons_ne (p := ⟨0⟩) (by simpa using Ne.symm ha)]
                exact hrc a ha
              · dsimp only
                simp only [List.length_cons]
                omega
            · have hmem : h ∈ s.handles := List.getElem?_mem hget
              have hcountpos : 0 < spAliasCount s.handles h.repr := by
                simp only [spAliasCount]
                exact List.countP_pos_iff.mpr ⟨h, hmem, by simp⟩
              obtain ⟨o, ho⟩ : ∃ o, s.heap.objs h.repr = some o := by
                have hrcpos : 0 < refAt s.heap h.repr := by
                  rw [hrc h.repr hr]; exact hcountpos
                cases hobj : s.heap.objs h.repr with
                | none => simp [refAt, hobj] at hrcpos
                | some o => exact ⟨o, rfl⟩
              have horc : o.refcount = spAliasCount s.handles h.repr := by
                have hx := hrc h.repr hr
                simpa [refAt, ho] using hx
              simp only [SpApply, hget, SeastarSharedPtr.clone,
                SeastarSharedPtr.__clone, if_neg hr]
              refine ⟨?_, ?_, ?_, ?_, ?_⟩
              · intro a ha
                dsimp only
                by_cases hna : a = h.repr
                · subst hna
                  have hup : refAt (heapIncRef h.repr s.heap) h.repr
                      = o.refcount + 1 := by
                    simp [refAt, heapIncRef_objs_eq, ho]
                  have hcons : spAliasCount
                      ((⟨h.repr⟩ : SeastarSharedPtr T) :: s.handles) h.repr
                      = spAliasCount s.handles h.repr + 1 :=
                    spAliasCount_cons_eq rfl
                  rw [hcons, hup]
                  omega
                · rw [spAliasCount_cons_ne (p := ⟨h.repr⟩)
                    (by simpa using Ne.symm hna)]
                  rw [show refAt (heapIncRef h.repr s.heap) a = refAt s.heap a by
                    simp [refAt, heapIncRef_objs_ne h.repr s.heap hna]]
                  exact hrc a ha
              · intro a o' hod
                dsimp only at hod
                by_cases hna : a = h.repr
                · subst hna
                  rw [heapIncRef_objs_eq, ho] at hod
                  simp only [Option.map_some', Option.some.injEq] at hod
                  subst hod
                  simp
                · rw [heapIncRef_objs_ne h.repr s.heap hna] at hod
                  exact hpos a o' hod
              · dsimp only
                rw [heapIncRef_objs_ne h.repr s.heap (Ne.symm hr)]
                exact hz
              · intro a halt
                dsimp only at halt ⊢
                rw [heapIncRef_next] at halt
                have hne : a ≠ h.repr := by
                  intro heqa
                  have hcontra := hfresh a halt
                  rw [heqa, ho] at hcontra
                  exact Option.noConfusion hcontra
                rw [heapIncRef_objs_ne h.repr s.heap hne]
                exact hfresh a halt
              · dsimp only
                simp only [List.length_cons]
                omega
    | doDrop i =>
        cases hget : s.handles[i]? with
        | none =>
            simp only [SpApply, hget]
            exact ⟨hrc, hpos, hz, hfresh, hcnt⟩
        | some h =>
            have hlt : i < s.handles.length :=
              (List.getElem?_eq_some_iff.mp hget).1
            have hlen : (s.handles.eraseIdx i).length = s.handles.length - 1 :=
              List.length_eraseIdx_of_lt hlt
            by_cases hr : h.repr = 0
            · simp only [SpApply, hget, SeastarSharedPtr.drop,
                SeastarSharedPtr.__drop, if_pos hr]
              refine ⟨?_, hpos, hz, hfresh, ?_⟩
              · intro a ha
                dsimp only
                have herase := spAliasCount_eraseIdx hget a
                rw [if_neg (by omega : ¬h.repr = a)] at herase
                have hx := hrc a ha
                omega
              · dsimp only
                omega
            · have hmem : h ∈ s.handles := List.getElem?_mem hget
              have hcountpos : 0 < spAliasCount s.handles h.repr := by
                simp only [spAliasCount]
                exact List.countP_pos_iff.mpr ⟨h, hmem, by simp⟩
              obtain ⟨o, ho⟩ : ∃ o, s.heap.objs h.repr = some o := by
                have hrcpos : 0 < refAt s.heap h.repr := by
                  rw [hrc h.repr hr]; exact hcountpos
                cases hobj : s.heap.objs h.repr with
                | none => simp [refAt, hobj] at hrcpos
                | some o => exact ⟨o, rfl⟩
              have horc : o.refcount = spAliasCount s.handles h.repr := by
                have hx := hrc h.repr hr
                simpa [refAt, ho] using hx
              simp only [SpApply, hget, SeastarSharedPtr.drop,
                SeastarSharedPtr.__drop, if_neg hr]
              refine ⟨?_, ?_, ?_, ?_, ?_⟩
              · intro a ha
                dsimp only
                have herase := spAliasCount_eraseIdx hget a
                by_cases hna : a = h.repr
                · subst hna
                  rw [if_pos rfl] at herase
                  rw [show refAt (heapDecRef h.repr s.heap) h.repr
                      = (if o.refcount ≤ 1 then 0 else o.refcount - 1) by
                    rw [refAt, heapDecRef_objs_eq h.repr s.heap o ho]
                    by_cases hone : o.refcount ≤ 1 <;> simp [hone]]
                  split <;> omega
                · rw [if_neg (by omega : ¬h.repr = a)] at herase
                  rw [show refAt (heapDecRef h.repr s.heap) a = refAt s.heap a by
                    simp [refAt, heapDecRef_objs_ne h.repr s.heap hna]]
                  have hx := hrc a ha
                  omega
              · intro a o' hod
                dsimp only at hod
                by_cases hna : a = h.repr
                · subst hna
                  rw [heapDecRef_objs_eq h.repr s.heap o ho] at hod
                  by_cases hone : o.refcount ≤ 1
                  · simp [hone] at hod
                  · simp only [if_neg hone, Option.some.injEq] at hod
                    subst hod
                    simp only []
                    omega
                · rw [heapDecRef_objs_ne h.repr s.heap hna] at hod
                  exact hpos a o' hod
              · dsimp only
                rw [heapDecRef_objs_ne h.repr s.heap (Ne.symm hr)]
                exact hz
              · intro a halt
                dsimp only at halt ⊢
                rw [heapDecRef_next] at halt
                have hne : a ≠ h.repr := by
                  intro heqa
                  have hcontra := hfresh a halt
                  rw [heqa, ho] at hcontra
                  exact Option.noConfusion hcontra
                rw [heapDecRef_objs_ne h.repr s.heap hne]
                exact hfresh a halt
              · dsimp only
                omega

/-- The invariant holds after running any trace from the initial state. -/
theorem SpRun_inv {T : Type} (d : TargetDesc T) (es : List (SpEvent T)) :
    SpInv (SpRun d es) := by
  have hinit : SpInv (SpSt.init (T := T)) := by
    refine ⟨?_, ?_, ?_, ?_, ?_⟩ <;>
      simp [SpSt.init, emptyHeap, refAt, spAliasCount]
  rw [SpRun]
  generalize SpSt.init = s0 at hinit ⊢
  induction es generalizing s0 with
  | nil => simpa using hinit
  | cons e es ih =>
      simp only [List.foldl_cons]
      exact ih _ (SpStep_inv d s0 e hinit)

/-- Concrete foreign heap used to instantiate theorems: one object holding
`42` with reference count 1 at address 1. -/
def oneObjHeap : ForeignHeap Nat :=
  ⟨fun a => if a = 1 then some ⟨42, 1⟩ else none, 1⟩

/-- C1: for every pointee type and either handle kind, dereferencing a null
handle terminates with a fatal diagnostic naming the pointee's type
identifier and never returns a reference; dereferencing a non-null handle
returns a reference to the owned object. -/
theorem seastar_deref_null_fatal {T : Type} [Inhabited T] (d : TargetDesc T)
    (hL : SeastarLwSharedPtr T) (hF : SeastarSharedPtr T) (s : ForeignHeap T) :
    ((SeastarLwSharedPtr.is_null hL s).1 = true →
        SeastarLwSharedPtr.deref d hL s
          = Outcome.panicked
              ("called deref on a null SeastarLwSharedPtr<" ++ d.typename ++ ">")
        ∧ ∀ t, SeastarLwSharedPtr.deref d hL s ≠ Outcome.ret t)
    ∧ ((SeastarLwSharedPtr.is_null hL s).1 = false →
        SeastarLwSharedPtr.deref d hL s = Outcome.ret (readValue s hL.repr)
        ∧ (SeastarLwSharedPtr.as_ref hL s).1 = some (readValue s hL.repr))
    ∧ ((SeastarSharedPtr.is_null hF s).1 = true →
        SeastarSharedPtr.deref d hF s
          = Outcome.panicked
              ("called deref on a null SeastarSharedPtr<" ++ d.typename ++ ">")
        ∧ ∀ t, SeastarSharedPtr.deref d hF s ≠ Outcome.ret t)
    ∧ ((SeastarSharedPtr.is_null hF s).1 = false →
        SeastarSharedPtr.deref d hF s = Outcome.ret (readValue s hF.repr)
        ∧ (SeastarSharedPtr.as_ref hF s).1 = some (readValue s hF.repr)) := by
  refine ⟨?_, ?_, ?_, ?_⟩
  · intro hnull
    have h0 : hL.repr = 0 := by
      simpa [SeastarLwSharedPtr.is_null, SeastarLwSharedPtr.__get] using hnull
    constructor
    · simp [SeastarLwSharedPtr.deref, SeastarLwSharedPtr.as_ref,
        SeastarLwSharedPtr.__get, h0]
    · intro t hcontra
      simp [SeastarLwSharedPtr.deref, SeastarLwSharedPtr.as_ref,
        SeastarLwSharedPtr.__get, h0] at hcontra
  · intro hnn
    have h0 : ¬hL.repr = 0 := by
      simpa [SeastarLwSharedPtr.is_null, SeastarLwSharedPtr.__get] using hnn
    constructor <;>
      simp [SeastarLwSharedPtr.deref, SeastarLwSharedPtr.as_ref,
        SeastarLwSharedPtr.__get, h0]
  · intro hnull
    have h0 : hF.repr = 0 := by
      simpa [SeastarSharedPtr.is_null, SeastarSharedPtr.__get] using hnull
    constructor
    · simp [SeastarSharedPtr.deref, SeastarSharedPtr.as_ref,
        SeastarSharedPtr.__get, h0]
    · intro t hcontra
      simp [SeastarSharedPtr.deref, SeastarSharedPtr.as_ref,
        SeastarSharedPtr.__get, h0] at hcontra
  · intro hnn
    have h0 : ¬hF.repr = 0 := by
      simpa [SeastarSharedPtr.is_null, SeastarSharedPtr.__get] using hnn
    constructor <;>
      simp [SeastarSharedPtr.deref, SeastarSharedPtr.as_ref,
        SeastarSharedPtr.__get, h0]

/-- Witness for C1: on the concrete heap, dereferencing null handles of both
kinds over the `u32` binding panics with the message naming `u32`, and
dereferencing the non-null handle at address 1 returns the owned `42`. -/
theorem seastar_deref_null_fatal_witness :
    SeastarLwSharedPtr.deref u32Desc ⟨0⟩ oneObjHeap
        = Outcome.panicked "called deref on a null SeastarLwSharedPtr<u32>"
    ∧ SeastarLwSharedPtr.deref u32Desc ⟨1⟩ oneObjHeap = Outcome.ret 42
    ∧ SeastarSharedPtr.deref u32Desc ⟨0⟩ oneObjHeap
        = Outcome.panicked "called deref on a null SeastarSharedPtr<u32>"
    ∧ SeastarSharedPtr.deref u32Desc ⟨1⟩ oneObjHeap = Outcome.ret 42 := by
  refine ⟨?_, ?_, ?_, ?_⟩
  · exact ((seastar_deref_null_fatal u32Desc ⟨0⟩ ⟨0⟩ oneObjHeap).1
      (by decide)).1.trans (by decide)
  · exact ((seastar_deref_null_fatal u32Desc ⟨1⟩ ⟨1⟩ oneObjHeap).2.1
      (by decide)).1.trans (by decide)
  · exact ((seastar_deref_null_fatal u32Desc ⟨0⟩ ⟨0⟩ oneObjHeap).2.2.1
      (by decide)).1.trans (by decide)
  · exact ((seastar_deref_null_fatal u32Desc ⟨1⟩ ⟨1⟩ oneObjHeap).2.2.2
      (by decide)).1.trans (by decide)

/-- C2: for every pointee type and both handle kinds, the handle produced by
`null()` satisfies `is_null() == true` and `as_ref() == None`, and its
raw-address read (`__get`) yields the null sentinel. -/
theorem seastar_null_handle_observers {T : Type} [Inhabited T]
    (s : ForeignHeap T) :
    (SeastarLwSharedPtr.is_null (SeastarLwSharedPtr.null s).1
        (SeastarLwSharedPtr.null s).2).1 = true
    ∧ (SeastarLwSharedPtr.as_ref (SeastarLwSharedPtr.null s).1
        (SeastarLwSharedPtr.null s).2).1 = none
    ∧ (SeastarLwSharedPtr.__get (SeastarLwSharedPtr.null s).1
        (SeastarLwSharedPtr.null s).2).1 = 0
    ∧ (SeastarSharedPtr.is_null (SeastarSharedPtr.null s).1
        (SeastarSharedPtr.null s).2).1 = true
    ∧ (SeastarSharedPtr.as_ref (SeastarSharedPtr.null s).1
        (SeastarSharedPtr.null s).2).1 = none
    ∧ (SeastarSharedPtr.__get (SeastarSharedPtr.null s).1
        (SeastarSharedPtr.null s).2).1 = 0 := by
  refine ⟨?_, ?_, ?_, ?_, ?_, ?_⟩ <;>
    simp [SeastarLwSharedPtr.null, SeastarLwSharedPtr.__null,
      SeastarLwSharedPtr.is_null, SeastarLwSharedPtr.as_ref,
      SeastarLwSharedPtr.__get, SeastarSharedPtr.null,
      SeastarSharedPtr.__null, SeastarSharedPtr.is_null,
      SeastarSharedPtr.as_ref, SeastarSharedPtr.__get]

/-- C9: the observers `is_null` and `as_ref` of both handle kinds have no
side effects: the foreign heap — including every object's ownership and
reference count — is returned unchanged, and no ownership is transferred. -/
theorem seastar_observers_no_side_effects {T : Type} [Inhabited T]
    (hL : SeastarLwSharedPtr T) (hF : SeastarSharedPtr T) (s : ForeignHeap T) :
    (SeastarLwSharedPtr.is_null hL s).2 = s
    ∧ (SeastarLwSharedPtr.as_ref hL s).2 = s
    ∧ (SeastarSharedPtr.is_null hF s).2 = s
    ∧ (SeastarSharedPtr.as_ref hF s).2 = s := by
  refine ⟨rfl, rfl, rfl, rfl⟩

/-- C10: for every handle of either kind, `is_null() == true` holds exactly
when `as_ref() == None`: both observers are defined by the same raw-address
read compared against the null sentinel. -/
theorem seastar_is_null_iff_as_ref_none {T : Type} [Inhabited T]
    (hL : SeastarLwSharedPtr T) (hF : SeastarSharedPtr T) (s : ForeignHeap T) :
    ((SeastarLwSharedPtr.is_null hL s).1 = true
      ↔ (SeastarLwSharedPtr.as_ref hL s).1 = none)
    ∧ ((SeastarSharedPtr.is_null hF s).1 = true
      ↔ (SeastarSharedPtr.as_ref hF s).1 = none) := by
  constructor
  · by_cases h0 : hL.repr = 0 <;>
      simp [SeastarLwSharedPtr.is_null, SeastarLwSharedPtr.as_ref,
        SeastarLwSharedPtr.__get, h0]
  · by_cases h0 : hF.repr = 0 <;>
      simp [SeastarSharedPtr.is_null, SeastarSharedPtr.as_ref,
        SeastarSharedPtr.__get, h0]

/-- C3: for every plain-data pointee type (the `Kind.trivial` hypothesis
models `new`'s `T: ExternType<Kind = Trivial>` bound, which is the only way
`new` is available) whose binding provides value-construction, `new(v)`
returns normally and the fresh handle satisfies `is_null() == false` and
`as_ref() == Some(v)`. -/
theorem seastar_new_owning_observers {T : Type} [Inhabited T]
    (d : TargetDesc T) (hk : d.kind = Kind.trivial)
    (hb : d.hasNewBinding = true) (v : T) (s : ForeignHeap T) :
    (match SeastarLwSharedPtr.new d hk v s with
      | Outcome.ret ps =>
          (SeastarLwSharedPtr.is_null ps.1 ps.2).1 = false
          ∧ (SeastarLwSharedPtr.as_ref ps.1 ps.2).1 = some v
      | Outcome.panicked _ => False)
    ∧ (match SeastarSharedPtr.new d hk v s with
      | Outcome.ret ps =>
          (SeastarSharedPtr.is_null ps.1 ps.2).1 = false
          ∧ (SeastarSharedPtr.as_ref ps.1 ps.2).1 = some v
      | Outcome.panicked _ => False) := by
  constructor
  · simp only [SeastarLwSharedPtr.new, SeastarLwSharedPtr.dispatchNew, hb,
      if_true, SeastarLwSharedPtr.__newAlloc, heapAlloc]
    constructor
    · simp [SeastarLwSharedPtr.is_null, SeastarLwSharedPtr.__get]
    · simp [SeastarLwSharedPtr.as_ref, SeastarLwSharedPtr.__get, readValue]
  · simp only [SeastarSharedPtr.new, SeastarSharedPtr.dispatchNew, hb,
      if_true, SeastarSharedPtr.__newAlloc, heapAlloc]
    constructor
    · simp [SeastarSharedPtr.is_null, SeastarSharedPtr.__get]
    · simp [SeastarSharedPtr.as_ref, SeastarSharedPtr.__get, readValue]

/-- Witness for C3: constructing `new(7)` over the `u32` binding on the empty
heap yields, for both kinds, a non-null handle whose `as_ref` observes `7`. -/
theorem seastar_new_owning_observers_witness :
    (match SeastarLwSharedPtr.new u32Desc rfl 7 emptyHeap with
      | Outcome.ret ps =>
          (SeastarLwSharedPtr.is_null ps.1 ps.2).1 = false
          ∧ (SeastarLwSharedPtr.as_ref ps.1 ps.2).1 = some 7
      | Outcome.panicked _ => False)
    ∧ (match SeastarSharedPtr.new u32Desc rfl 7 emptyHeap with
      | Outcome.ret ps =>
          (SeastarSharedPtr.is_null ps.1 ps.2).1 = false
          ∧ (SeastarSharedPtr.as_ref ps.1 ps.2).1 = some 7
      | Outcome.panicked _ => False) :=
  seastar_new_owning_observers u32Desc rfl (by decide) 7 emptyHeap

/-- C4: for any owning (non-null, live) handle of either kind, `clone()`
yields an independent handle observing the same object address, whose
`as_ref` observation agrees with the original's, and dropping either one of
the two handles leaves the other's `as_ref` observation valid and
unchanged. -/
theorem seastar_clone_aliases_and_survives_drop {T : Type} [Inhabited T]
    (s : ForeignHeap T)
    (hL : SeastarLwSharedPtr T) (oL : Obj T) (h1 : hL.repr ≠ 0)
    (h2 : s.objs hL.repr = some oL) (h3 : 0 < oL.refcount)
    (hF : SeastarSharedPtr T) (oF : Obj T) (h4 : hF.repr ≠ 0)
    (h5 : s.objs hF.repr = some oF) (h6 : 0 < oF.refcount) :
    ((SeastarLwSharedPtr.clone hL s).1.repr = hL.repr
      ∧ (SeastarLwSharedPtr.as_ref (SeastarLwSharedPtr.clone hL s).1
          (SeastarLwSharedPtr.clone hL s).2).1
        = (SeastarLwSharedPtr.as_ref hL s).1
      ∧ (SeastarLwSharedPtr.as_ref (SeastarLwSharedPtr.clone hL s).1
          (SeastarLwSharedPtr.drop hL (SeastarLwSharedPtr.clone hL s).2)).1
        = (SeastarLwSharedPtr.as_ref (SeastarLwSharedPtr.clone hL s).1
            (SeastarLwSharedPtr.clone hL s).2).1
      ∧ (SeastarLwSharedPtr.as_ref hL
          (SeastarLwSharedPtr.drop (SeastarLwSharedPtr.clone hL s).1
            (SeastarLwSharedPtr.clone hL s).2)).1
        = (SeastarLwSharedPtr.as_ref hL s).1
      ∧ (SeastarLwSharedPtr.as_ref hL s).1 = some oL.value)
    ∧ ((SeastarSharedPtr.clone hF s).1.repr = hF.repr
      ∧ (SeastarSharedPtr.as_ref (SeastarSharedPtr.clone hF s).1
          (SeastarSharedPtr.clone hF s).2).1
        = (SeastarSharedPtr.as_ref hF s).1
      ∧ (SeastarSharedPtr.as_ref (SeastarSharedPtr.clone hF s).1
          (SeastarSharedPtr.drop hF (SeastarSharedPtr.clone hF s).2)).1
        = (SeastarSharedPtr.as_ref (SeastarSharedPtr.clone hF s).1
            (SeastarSharedPtr.clone hF s).2).1
      ∧ (SeastarSharedPtr.as_ref hF
          (SeastarSharedPtr.drop (SeastarSharedPtr.clone hF s).1
            (SeastarSharedPtr.clone hF s).2)).1
        = (SeastarSharedPtr.as_ref hF s).1
      ∧ (SeastarSharedPtr.as_ref hF s).1 = some oF.value) := by
  constructor
  · have hinc : (heapIncRef hL.repr s).objs hL.repr
        = some ⟨oL.value, oL.refcount + 1⟩ := by
      rw [heapIncRef_objs_eq, h2]
      rfl
    have hdec : (heapDecRef hL.repr (heapIncRef hL.repr s)).objs hL.repr
        = some ⟨oL.value, oL.refcount⟩ := by
      rw [heapDecRef_objs_eq _ _ _ hinc]
      rw [if_neg (by show ¬(oL.refcount + 1 ≤ 1); omega)]
      simp
    refine ⟨?_, ?_, ?_, ?_, ?_⟩ <;>
      simp [SeastarLwSharedPtr.clone, SeastarLwSharedPtr.__clone,
        SeastarLwSharedPtr.drop, SeastarLwSharedPtr.__drop,
        SeastarLwSharedPtr.as_ref, SeastarLwSharedPtr.__get, h1, h2,
        readValue, hinc, hdec]
  · have hinc : (heapIncRef hF.repr s).objs hF.repr
        = some ⟨oF.value, oF.refcount + 1⟩ := by
      rw [heapIncRef_objs_eq, h5]
      rfl
    have hdec : (heapDecRef hF.repr (heapIncRef hF.repr s)).objs hF.repr
        = some ⟨oF.value, oF.refcount⟩ := by
      rw [heapDecRef_objs_eq _ _ _ hinc]
      rw [if_neg (by show ¬(oF.refcount + 1 ≤ 1); omega)]
      simp
    refine ⟨?_, ?_, ?_, ?_, ?_⟩ <;>
      simp [SeastarSharedPtr.clone, SeastarSharedPtr.__clone,
        SeastarSharedPtr.drop, SeastarSharedPtr.__drop,
        SeastarSharedPtr.as_ref, SeastarSharedPtr.__get, h4, h5,
        readValue, hinc, hdec]

/-- Witness for C4: on the concrete one-object heap, cloning the owning
handle at address 1 (for both kinds) aliases the same address and both
handles still observe `42` after dropping the other. -/
theorem seastar_clone_aliases_and_survives_drop_witness :
    ((SeastarLwSharedPtr.clone (⟨1⟩ : SeastarLwSharedPtr Nat) oneObjHeap).1.repr = 1
      ∧ (SeastarLwSharedPtr.as_ref (SeastarLwSharedPtr.clone ⟨1⟩ oneObjHeap).1
          (SeastarLwSharedPtr.clone (⟨1⟩ : SeastarLwSharedPtr Nat) oneObjHeap).2).1
        = (SeastarLwSharedPtr.as_ref ⟨1⟩ oneObjHeap).1
      ∧ (SeastarLwSharedPtr.as_ref (SeastarLwSharedPtr.clone ⟨1⟩ oneObjHeap).1
          (SeastarLwSharedPtr.drop ⟨1⟩
            (SeastarLwSharedPtr.clone (⟨1⟩ : SeastarLwSharedPtr Nat) oneObjHeap).2)).1
        = (SeastarLwSharedPtr.as_ref (SeastarLwSharedPtr.clone ⟨1⟩ oneObjHeap).1
            (SeastarLwSharedPtr.clone (⟨1⟩ : SeastarLwSharedPtr Nat) oneObjHeap).2).1
      ∧ (SeastarLwSharedPtr.as_ref ⟨1⟩
          (SeastarLwSharedPtr.drop (SeastarLwSharedPtr.clone ⟨1⟩ oneObjHeap).1
            (SeastarLwSharedPtr.clone (⟨1⟩ : SeastarLwSharedPtr Nat) oneObjHeap).2)).1
        = (SeastarLwSharedPtr.as_ref ⟨1⟩ oneObjHeap).1
      ∧ (SeastarLwSharedPtr.as_ref (⟨1⟩ : SeastarLwSharedPtr Nat) oneObjHeap).1
        = some (42 : Nat))
    ∧ ((SeastarSharedPtr.clone (⟨1⟩ : SeastarSharedPtr Nat) oneObjHeap).1.repr = 1
      ∧ (SeastarSharedPtr.as_ref (SeastarSharedPtr.clone ⟨1⟩ oneObjHeap).1
          (SeastarSharedPtr.clone (⟨1⟩ : SeastarSharedPtr Nat) oneObjHeap).2).1
        = (SeastarSharedPtr.as_ref ⟨1⟩ oneObjHeap).1
      ∧ (SeastarSharedPtr.as_ref (SeastarSharedPtr.clone ⟨1⟩ oneObjHeap).1
          (SeastarSharedPtr.drop ⟨1⟩
            (SeastarSharedPtr.clone (⟨1⟩ : SeastarSharedPtr Nat) oneObjHeap).2)).1
        = (SeastarSharedPtr.as_ref (SeastarSharedPtr.clone ⟨1⟩ oneObjHeap).1
            (SeastarSharedPtr.clone (⟨1⟩ : SeastarSharedPtr Nat) oneObjHeap).2).1
      ∧ (SeastarSharedPtr.as_ref ⟨1⟩
          (SeastarSharedPtr.drop (SeastarSharedPtr.clone ⟨1⟩ oneObjHeap).1
            (SeastarSharedPtr.clone (⟨1⟩ : SeastarSharedPtr Nat) oneObjHeap).2)).1
        = (SeastarSharedPtr.as_ref ⟨1⟩ oneObjHeap).1
      ∧ (SeastarSharedPtr.as_ref (⟨1⟩ : SeastarSharedPtr Nat) oneObjHeap).1
        = some (42 : Nat)) :=
  seastar_clone_aliases_and_survives_drop oneObjHeap
    ⟨1⟩ ⟨42, 1⟩ (by decide) (by decide) (by decide)
    ⟨1⟩ ⟨42, 1⟩ (by decide) (by decide) (by decide)

/-- C6: for a pointee type with no value-construct binding (a foreign-opaque
pointee, whose impl keeps the trait's default `__new` body), dispatching the
value-construct operation causes an unconditional abort — a panic with
Rust's unreachable-code message — and never returns a value. -/
theorem seastar_opaque_new_unconditional_abort {T : Type} (d : TargetDesc T)
    (v : T) (s : ForeignHeap T) (hb : d.hasNewBinding = false) :
    SeastarLwSharedPtr.dispatchNew d v s
        = Outcome.panicked "internal error: entered unreachable code"
    ∧ (∀ r, SeastarLwSharedPtr.dispatchNew d v s ≠ Outcome.ret r)
    ∧ SeastarSharedPtr.dispatchNew d v s
        = Outcome.panicked "internal error: entered unreachable code"
    ∧ (∀ r, SeastarSharedPtr.dispatchNew d v s ≠ Outcome.ret r) := by
  refine ⟨?_, ?_, ?_, ?_⟩ <;>
    simp [SeastarLwSharedPtr.dispatchNew, SeastarSharedPtr.dispatchNew, hb]

/-- Witness for C6: dispatching value-construct for the opaque generated
binding aborts with the unreachable-code panic for both handle kinds. -/
theorem seastar_opaque_new_unconditional_abort_witness :
    SeastarLwSharedPtr.dispatchNew opaqueGenDesc 0 emptyHeap
        = Outcome.panicked "internal error: entered unreachable code"
    ∧ SeastarSharedPtr.dispatchNew opaqueGenDesc 0 emptyHeap
        = Outcome.panicked "internal error: entered unreachable code" :=
  ⟨(seastar_opaque_new_unconditional_abort opaqueGenDesc 0 emptyHeap
      (by decide)).1,
   (seastar_opaque_new_unconditional_abort opaqueGenDesc 0 emptyHeap
      (by decide)).2.2.1⟩

/-- C7: the full handle `SeastarSharedPtr` is Send (resp. Sync) exactly when
the pointee type is both Send and Sync, and the compact handle
`SeastarLwSharedPtr` is never Send nor Sync, for every pointee type. -/
theorem seastar_send_sync_capability {T : Type} (d : TargetDesc T) :
    (seastarSharedPtrSend d = true ↔ (d.sendT = true ∧ d.syncT = true))
    ∧ (seastarSharedPtrSync d = true ↔ (d.sendT = true ∧ d.syncT = true))
    ∧ seastarLwSharedPtrSend d = false
    ∧ seastarLwSharedPtrSync d = false := by
  refine ⟨?_, ?_, ?_, ?_⟩ <;>
    simp [seastarSharedPtrSend, seastarSharedPtrSync,
      seastarLwSharedPtrSend, seastarLwSharedPtrSync, rawPtrSend, rawPtrSync,
      Bool.and_eq_true]

/-- C8: for every per-type segment and every operation (null,
uninit/value-construct, clone, get, drop), the trampoline link name built by
the macros equals the deterministic concatenation of the fixed prefix
"cxxbridge1$seastar$", the handle-kind segment, the per-type segment, and
the operation name, separated by "$". -/
theorem seastar_trampoline_symbol_names (segment : String) :
    lwNullSymbol segment = specSymbol "lw_shared_ptr" segment "null"
    ∧ lwUninitSymbol segment = specSymbol "lw_shared_ptr" segment "uninit"
    ∧ lwCloneSymbol segment = specSymbol "lw_shared_ptr" segment "clone"
    ∧ lwGetSymbol segment = specSymbol "lw_shared_ptr" segment "get"
    ∧ lwDropSymbol segment = specSymbol "lw_shared_ptr" segment "drop"
    ∧ spNullSymbol segment = specSymbol "shared_ptr" segment "null"
    ∧ spUninitSymbol segment = specSymbol "shared_ptr" segment "uninit"
    ∧ spCloneSymbol segment = specSymbol "shared_ptr" segment "clone"
    ∧ spGetSymbol segment = specSymbol "shared_ptr" segment "get"
    ∧ spDropSymbol segment = specSymbol "shared_ptr" segment "drop" := by
  refine ⟨?_, ?_, ?_, ?_, ?_, ?_, ?_, ?_, ?_, ?_⟩ <;>
  · simp only [lwNullSymbol, lwUninitSymbol, lwCloneSymbol, lwGetSymbol,
      lwDropSymbol, spNullSymbol, spUninitSymbol, spCloneSymbol, spGetSymbol,
      spDropSymbol, specSymbol, String.append_assoc]
    rfl

/-- C5: over any handle-lifetime trace (Rust invokes `Drop::drop`, hence the
`__drop` trampoline, exactly at each handle's scope exit) of either kind,
the number of release invocations plus the number of still-live handles
always equals the number of handles created — so release fires exactly once
per handle, never twice and never early; and once every handle of the trace
has gone out of scope, releases equal creations exactly and the foreign
heap holds no object: no double release occurred on any clone chain and the
last release freed each object. -/
theorem seastar_release_exactly_once {T : Type} [Inhabited T]
    (d d' : TargetDesc T) (es : List (LwEvent T)) (fs : List (SpEvent T)) :
    ((LwRun d es).releases + (LwRun d es).handles.length = (LwRun d es).created
      ∧ ((LwRun d es).handles = [] →
          (LwRun d es).releases = (LwRun d es).created
          ∧ ∀ a, (LwRun d es).heap.objs a = none))
    ∧ ((SpRun d' fs).releases + (SpRun d' fs).handles.length
          = (SpRun d' fs).created
      ∧ ((SpRun d' fs).handles = [] →
          (SpRun d' fs).releases = (SpRun d' fs).created
          ∧ ∀ a, (SpRun d' fs).heap.objs a = none)) := by
  obtain ⟨hrc, hpos, hz, hfresh, hcnt⟩ := LwRun_inv d es
  obtain ⟨hrc2, hpos2, hz2, hfresh2, hcnt2⟩ := SpRun_inv d' fs
  constructor
  · refine ⟨hcnt, ?_⟩
    intro hempty
    constructor
    · rw [hempty] at hcnt
      simpa using hcnt
    · intro a
      by_cases ha : a = 0
      · subst ha
        exact hz
      · cases hobj : (LwRun d es).heap.objs a with
        | none => rfl
        | some o =>
            have h1 := hrc a ha
            rw [hempty] at h1
            simp [refAt, hobj, lwAliasCount] at h1
            have hp := hpos a o hobj
            omega
  · refine ⟨hcnt2, ?_⟩
    intro hempty
    constructor
    · rw [hempty] at hcnt2
      simpa using hcnt2
    · intro a
      by_cases ha : a = 0
      · subst ha
        exact hz2
      · cases hobj : (SpRun d' fs).heap.objs a with
        | none => rfl
        | some o =>
            have h1 := hrc2 a ha
            rw [hempty] at h1
            simp [refAt, hobj, spAliasCount] at h1
            have hp := hpos2 a o hobj
            omega

/-- Concrete compact-handle trace: create an owning handle, clone it, then
drop both handles at their scope exits. -/
def lwTraceW : List (LwEvent Nat) :=
  [LwEvent.mkNew 5, LwEvent.doClone 0, LwEvent.doDrop 1, LwEvent.doDrop 0]

/-- Concrete full-handle trace: create an owning handle, clone it, then drop
both handles at their scope exits. -/
def spTraceW : List (SpEvent Nat) :=
  [SpEvent.mkNew 5, SpEvent.doClone 0, SpEvent.doDrop 1, SpEvent.doDrop 0]

/-- Witness for C5: on the concrete new/clone/drop/drop traces of both
kinds, releases equal creations at the end and the foreign heap is empty. -/
theorem seastar_release_exactly_once_witness :
    ((LwRun u32Desc lwTraceW).releases = (LwRun u32Desc lwTraceW).created
      ∧ ∀ a, (LwRun u32Desc lwTraceW).heap.objs a = none)
    ∧ ((SpRun u32Desc spTraceW).releases = (SpRun u32Desc spTraceW).created
      ∧ ∀ a, (SpRun u32Desc spTraceW).heap.objs a = none) :=
  ⟨(seastar_release_exactly_once u32Desc u32Desc lwTraceW spTraceW).1.2
      (by decide),
   (seastar_release_exactly_once u32Desc u32Desc lwTraceW spTraceW).2.2
      (by decide)⟩
